import Mathlib

/-!
# DyldExtractor: command-line front end (`DyldExtractor/main.cpp`)

A shallow embedding of the option parser (`Options`), the extraction invoker
(`Extractor`) and `main`, with the dynamic loader, the working-directory query and
the external extraction routine taken as oracles.
-/

set_option linter.dupNamespace false

namespace DyldExtractor

/-! ## Options (main.cpp, lines 58-136) -/

/-- The `Options` object together with the `ErrorReporting` base it inherits from
(`_has_error` starts out `true`, every other field starts out empty or `false`). -/
structure Options where
  argc : Nat
  argv : List String
  _has_error : Bool := true
  _error : String := ""
  _input_path : String := ""
  _verbose : Bool := false
  _has_dest_path : Bool := false
  _dest_path : String := ""
  _has_library_path : Bool := false
  _library_path : String := ""

namespace Options

def hasError (self : Options) : Bool := self._has_error
def error (self : Options) : String := self._error
def inputPath (self : Options) : String := self._input_path
def verbose (self : Options) : Bool := self._verbose
def hasDestPath (self : Options) : Bool := self._has_dest_path
def destPath (self : Options) : String := self._dest_path
def hasLibraryPath (self : Options) : Bool := self._has_library_path
def libraryPath (self : Options) : String := self._library_path

/-- Everything the public accessors of an `Options` object return. -/
def exposed (self : Options) : Bool × String × String × Bool × Bool × String × Bool × String :=
  (self.hasError, self.error, self.inputPath, self.verbose, self.hasDestPath, self.destPath,
    self.hasLibraryPath, self.libraryPath)

/-- The method `getOptionValue(i, opt, out_value, out_option)`. The three reference
parameters and the object are returned next to the boolean result, in the order
`(result, i, out_value, out_option, self)`. -/
def getOptionValue (self : Options) (i : Nat) (opt : String) (out_value : String)
    (out_option : Bool) : Bool × Nat × String × Bool × Options :=
  let next_idx := i + 1
  if next_idx ≥ self.argc then
    (false, i, out_value, out_option,
      { self with _error := "value must be specified for option: " ++ opt })
  else
    (true, next_idx, self.argv.getD next_idx "", true, self)

/-- The `for (int i = 2; i < argc; ++i)` loop of the constructor, entered at index `i`,
followed by the `_has_error = false` that is reached when the loop runs to its end.
Every iteration moves `i` forward, so `argc - i + 1` units of fuel are enough
(`parseLoop_eq_scan`). -/
def parseLoop : Nat → Nat → Options → Options
  | 0, _, self => self
  | fuel + 1, i, self =>
    if i < self.argc then
      let opt := self.argv.getD i ""
      if opt = "-v" then
        parseLoop fuel (i + 1) { self with _verbose := true }
      else if opt = "-d" then
        match self.getOptionValue i opt self._dest_path self._has_dest_path with
        | (false, _, v, b, self) => { self with _dest_path := v, _has_dest_path := b }
        | (true, i, v, b, self) =>
          parseLoop fuel (i + 1) { self with _dest_path := v, _has_dest_path := b }
      else if opt = "-l" then
        match self.getOptionValue i opt self._library_path self._has_library_path with
        | (false, _, v, b, self) => { self with _library_path := v, _has_library_path := b }
        | (true, i, v, b, self) =>
          parseLoop fuel (i + 1) { self with _library_path := v, _has_library_path := b }
      else
        { self with _error := "unknown option: " ++ opt }
    else
      { self with _has_error := false }

/-- The constructor `Options(argc, argv)`; `argc` is the number of entries of `argv`. -/
def Options (argv : List String) : DyldExtractor.Options :=
  let self : DyldExtractor.Options := { argc := argv.length, argv := argv }
  if self.argc < 2 then
    { self with _error := "the cache file must be specified" }
  else
    let self := { self with _input_path := argv.getD 1 "" }
    parseLoop self.argc 2 self

end Options

/-! ## Console, globals and the outside world -/

def prog_version : String := "1.15.0"
def default_extractor_path : String := "/usr/lib/dsc_extractor.bundle"

/-- The calls that leave the program: `dlopen(library, RTLD_NOW)`, `dlsym(handle, symbol)`
and the call through `_extract_func`. -/
inductive Action where
  | load (library : String)
  | resolve (symbol : String)
  | invoke (input dest : String)
  deriving DecidableEq, Repr

/-- The external routine `int (*)(const char*, const char*, ProgressBlock)`: for an input
path and a destination it decides which `(current, total)` pairs it hands to the progress
block, in the order in which the semaphore lets them through, and which status it
returns. The block returns nothing, so it cannot steer the routine. -/
abbrev ExtractFunc := String → String → List (Nat × Nat) × Int

/-- The oracles: `dlopen` (`none` is the null handle), `dlsym` (`none` is the null
pointer) and `getcwd(nullptr, 0)` (`none` is the null result). -/
structure Env where
  dlopen : String → Option Nat
  dlsym : Nat → String → Option ExtractFunc
  getcwd : Option String

/-- The two globals, the text written to `std::cout` (one entry per output statement)
and the external calls made so far. -/
structure State where
  g_cmdline : String := ""
  g_verbose : Bool := false
  out : List String := []
  trace : List Action := []

def State.cout (s : State) (text : String) : State :=
  { s with out := s.out ++ [text] }

def State.call (s : State) (a : Action) : State :=
  { s with trace := s.trace ++ [a] }

def printUsage (s : State) : State :=
  let s := s.cout ("OVERVIEW: dyld shared cache extractor (" ++ prog_version ++ ")\n\n")
  let s := s.cout ("USAGE: " ++ s.g_cmdline ++ " <cache file> [-v] [-d arg] [-l arg]\n\n")
  let s := s.cout "OPTIONS:\n"
  let s := s.cout "\t-v print verbose messages\n"
  let s := s.cout "\t-d set destination path for the extracted files\n"
  let s := s.cout "\t-l set path to dsc_extractor library\n"
  s.cout "\n"

def printError (error : String) (s : State) : State :=
  s.cout ("error: " ++ s.g_cmdline ++ ": " ++ error ++ "\n")

def printVerbose (str : String) (s : State) : State :=
  if s.g_verbose then s.cout ("[!] " ++ str ++ "\n") else s

/-! ## Extractor (main.cpp, lines 138-198) -/

/-- The `Extractor` object with its `ErrorReporting` base; `_extract_func` is `none`
as long as the constructor has not stored the resolved pointer. -/
structure Extractor where
  _has_error : Bool := true
  _error : String := ""
  _extract_func : Option ExtractFunc := none
  _input_path : String
  _dest_path : String

namespace Extractor

def hasError (self : Extractor) : Bool := self._has_error
def error (self : Extractor) : String := self._error

/-- The constructor `Extractor(input, library, dest)`. -/
def Extractor (env : Env) (input library dest : String) (s : State) :
    DyldExtractor.Extractor × State :=
  let self : DyldExtractor.Extractor := { _input_path := input, _dest_path := dest }
  let s := printVerbose "loading the extractor library..." s
  let s := s.call (Action.load library)
  match env.dlopen library with
  | none => ({ self with _error := "failed to load the extractor library: " ++ library }, s)
  | some lib_handle =>
    let s := s.call (Action.resolve "dyld_shared_cache_extract_dylibs_progress")
    match env.dlsym lib_handle "dyld_shared_cache_extract_dylibs_progress" with
    | none => ({ self with _error := "failed to resolve the extract function" }, s)
    | some extract_func =>
      let self := { self with _extract_func := some extract_func }
      let self := { self with _has_error := false }
      (self, printVerbose "library loaded!" s)

/-- The progress block handed to the external routine, as a step on the captured
`first_progress_report` flag and the program state. The semaphore only orders the
invocations one after the other, which is what the list of calls already records. -/
def progressBlock (current total : Nat) (st : Bool × State) : Bool × State :=
  let first_progress_report := st.1
  let s := st.2
  let st : Bool × State :=
    if first_progress_report then
      (false, printVerbose "the cache file seems to be good!" s)
    else
      (first_progress_report, s)
  (st.1, st.2.cout ("extracting files... (" ++ toString current ++ "/" ++ toString total ++ ")\r"))

/-- All invocations of the progress block made during one call of the external routine. -/
def runProgress (calls : List (Nat × Nat)) (st : Bool × State) : Bool × State :=
  calls.foldl (fun st ct => progressBlock ct.1 ct.2 st) st

/-- The method `extract()`. It is only called on an object without error, where
`_extract_func` is set; on an unset pointer the model makes no call and reports failure. -/
def extract (self : DyldExtractor.Extractor) (s : State) : Bool × State :=
  let s := printVerbose "verifying the cache file, this may take a minute" s
  let first_progress_report := true
  match self._extract_func with
  | none => (false, s)
  | some f =>
    let s := s.call (Action.invoke self._input_path self._dest_path)
    let r := f self._input_path self._dest_path
    let st := runProgress r.1 (first_progress_report, s)
    let result := r.2
    let s := st.2.cout "\n"
    (result == 0, s)

end Extractor

/-! ## main (main.cpp, lines 200-247) -/

/-- How a run of `main` ends: with a return value, or in `abort()`. -/
inductive Exit where
  | returned (code : Int)
  | aborted
  deriving DecidableEq, Repr

/-- The lambda that resolves the destination path; `none` stands for the `abort()`. -/
def resolveDest (env : Env) (opts : Options) (s : State) : Option String × State :=
  if opts.hasDestPath then
    (some opts.destPath, s)
  else
    match env.getcwd with
    | none => (none, printError "failed to get current working directory" s)
    | some cwd => (some cwd, s)

/-- The library argument of the `Extractor` constructor call in `main`. -/
def libraryArg (opts : Options) : String :=
  if opts.hasLibraryPath then opts.libraryPath else default_extractor_path

/-- The function `main(argc, argv)`; `g_cmdline` is `argv[0]` (taken as empty when the
vector has no entry at all). -/
def main (env : Env) (argv : List String) : Exit × State :=
  let s : State := { g_cmdline := argv.headD "" }
  let opts := Options.Options argv
  if opts.hasError then
    let s := printUsage s
    let s := printError opts.error s
    (Exit.returned 1, s)
  else
    let s := { s with g_verbose := opts.verbose }
    match resolveDest env opts s with
    | (none, s) => (Exit.aborted, s)
    | (some dest_path, s) =>
      let s := printVerbose ("extracted files will be in " ++ dest_path) s
      let es := Extractor.Extractor env opts.inputPath (libraryArg opts) dest_path s
      let extractor := es.1
      let s := es.2
      if extractor.hasError then
        let s := printError extractor.error s
        (Exit.returned 1, s)
      else
        match extractor.extract s with
        | (true, s) => (Exit.returned 0, s.cout "done, have fun!\n")
        | (false, s) => (Exit.returned 1, s.cout "extract failed!\n")

/-! ## Reference reading of the command line -/

/-- One item of the command line after the input path. -/
inductive Item where
  | v
  | d (value : String)
  | l (value : String)
  deriving DecidableEq, Repr

/-- The tokens an item is written with. -/
def Item.tokens : Item → List String
  | Item.v => ["-v"]
  | Item.d value => ["-d", value]
  | Item.l value => ["-l", value]

/-- The tokens of a sequence of items, left to right. -/
def itemTokens : List Item → List String
  | [] => []
  | it :: items => it.tokens ++ itemTokens items

/-- Some item is `-v`. -/
def refVerbose (items : List Item) : Bool :=
  items.any (fun it => decide (it = Item.v))

/-- The values of the `-d` items, in order. -/
def destValues : List Item → List String
  | [] => []
  | Item.d value :: items => value :: destValues items
  | _ :: items => destValues items

/-- The values of the `-l` items, in order. -/
def libraryValues : List Item → List String
  | [] => []
  | Item.l value :: items => value :: libraryValues items
  | _ :: items => libraryValues items

/-- The value of the last `-d` item, when there is one. -/
def refDest (items : List Item) : Option String := (destValues items).getLast?

/-- The value of the last `-l` item, when there is one. -/
def refLibrary (items : List Item) : Option String := (libraryValues items).getLast?

/-! ## Auxiliary forms used in the proofs -/

/-- The effect of one well-formed item on the fields. -/
def applyItem (o : Options) : Item → Options
  | Item.v => { o with _verbose := true }
  | Item.d value => { o with _dest_path := value, _has_dest_path := true }
  | Item.l value => { o with _library_path := value, _has_library_path := true }

/-- The constructor loop read off the list of tokens that are still ahead. -/
def scan : List String → Options → Options
  | [], o => { o with _has_error := false }
  | opt :: rest, o =>
    if opt = "-v" then scan rest { o with _verbose := true }
    else if opt = "-d" then
      match rest with
      | [] => { o with _error := "value must be specified for option: " ++ opt }
      | value :: rest => scan rest { o with _dest_path := value, _has_dest_path := true }
    else if opt = "-l" then
      match rest with
      | [] => { o with _error := "value must be specified for option: " ++ opt }
      | value :: rest => scan rest { o with _library_path := value, _has_library_path := true }
    else { o with _error := "unknown option: " ++ opt }

/-- The start state of the scan for a vector with an input path. -/
def startOptions (prog input : String) (rest : List String) : Options :=
  { argc := rest.length + 2, argv := prog :: input :: rest, _input_path := input }

/-! ## What a run is expected to do, read off the oracles -/

/-- The name `main` looks up in the loaded library. -/
def extractSymbol : String := "dyld_shared_cache_extract_dylibs_progress"

/-- The destination of a run: the `-d` value when one was given, else what the
working-directory query returns (`none` when it fails). -/
def expectedDest (env : Env) (opts : Options) : Option String :=
  if opts.hasDestPath then some opts.destPath else env.getcwd

/-- The external calls of a run: none after a parse error or a failed working-directory
query, then load, resolve, invoke, stopping after the first step that fails. -/
def expectedTrace (env : Env) (argv : List String) : List Action :=
  let opts := Options.Options argv
  if opts.hasError then []
  else
    match expectedDest env opts with
    | none => []
    | some dest =>
      match env.dlopen (libraryArg opts) with
      | none => [Action.load (libraryArg opts)]
      | some handle =>
        match env.dlsym handle extractSymbol with
        | none => [Action.load (libraryArg opts), Action.resolve extractSymbol]
        | some _ =>
          [Action.load (libraryArg opts), Action.resolve extractSymbol,
            Action.invoke opts.inputPath dest]

/-- The three kinds of external call. -/
inductive ActionKind where
  | load
  | resolve
  | invoke
  deriving DecidableEq, Repr

def Action.kind : Action → ActionKind
  | Action.load _ => ActionKind.load
  | Action.resolve _ => ActionKind.resolve
  | Action.invoke _ _ => ActionKind.invoke

/-- The four error classes that end a run with a return value. -/
inductive ErrorClass where
  | argument
  | load
  | resolve
  | extraction
  deriving DecidableEq, Repr

/-- The error class of a run, if any (`none` as well when the working-directory query
fails, which ends the run in `abort()`). -/
def errorClass (env : Env) (argv : List String) : Option ErrorClass :=
  let opts := Options.Options argv
  if opts.hasError then some ErrorClass.argument
  else
    match expectedDest env opts with
    | none => none
    | some dest =>
      match env.dlopen (libraryArg opts) with
      | none => some ErrorClass.load
      | some handle =>
        match env.dlsym handle extractSymbol with
        | none => some ErrorClass.resolve
        | some f => if (f opts.inputPath dest).2 = 0 then none else some ErrorClass.extraction

/-- The line `error: <program>: <message>` as `printError` writes it. -/
def errorLine (prog msg : String) : String :=
  "error: " ++ prog ++ ": " ++ msg ++ "\n"

/-- An output entry that begins with `error: `. -/
def startsWithError (line : String) : Bool :=
  "error: ".data.isPrefixOf line.data

/-- The entry `printVerbose` writes for a message when verbose is on. -/
def verboseLine (str : String) : String := "[!] " ++ str ++ "\n"

/-- The progress entry for one pair of counters. -/
def progressLine (ct : Nat × Nat) : String :=
  "extracting files... (" ++ toString ct.1 ++ "/" ++ toString ct.2 ++ ")\r"

/-- The error lines each class leaves on the console, for program name `prog`. -/
def expectedErrorLines (prog : String) (opts : Options) : ErrorClass → List String
  | ErrorClass.argument => [errorLine prog opts.error]
  | ErrorClass.load =>
    [errorLine prog ("failed to load the extractor library: " ++ libraryArg opts)]
  | ErrorClass.resolve => [errorLine prog "failed to resolve the extract function"]
  | ErrorClass.extraction => []

/-- The state in which the external routine is entered. -/
def stateAtInvoke (argv : List String) (dest : String) : State :=
  (printVerbose "verifying the cache file, this may take a minute"
    (printVerbose "library loaded!"
      (((printVerbose "loading the extractor library..."
        (printVerbose ("extracted files will be in " ++ dest)
          { g_cmdline := argv.headD "", g_verbose := (Options.Options argv).verbose })).call
        (Action.load (libraryArg (Options.Options argv)))).call
        (Action.resolve extractSymbol)))).call
    (Action.invoke (Options.Options argv).inputPath dest)

/-! ## The console as lines of text -/

/-- The lines of a text: the pieces between its line breaks; a text that ends with a line
break has an empty last piece. -/
def linesOf : List Char → List (List Char)
  | [] => [[]]
  | c :: cs =>
    if c = '\n' then [] :: linesOf cs
    else
      match linesOf cs with
      | [] => [[c]]
      | l :: ls => (c :: l) :: ls

/-- The characters `std::cout` has received, all output entries one after the other. -/
def consoleChars : List String → List Char
  | [] => []
  | e :: es => e.data ++ consoleChars es

/-- The console output as lines. -/
def consoleLines (out : List String) : List String :=
  (linesOf (consoleChars out)).map String.mk

/-- The text `error: <program>: <message>` of an error line, without its line break. -/
def errorText (prog msg : String) : String :=
  "error: " ++ prog ++ ": " ++ msg

/-- The lines beginning with `error: ` that each class leaves on the console. -/
def expectedErrorTexts (prog : String) (opts : Options) : ErrorClass → List String
  | ErrorClass.argument => [errorText prog opts.error]
  | ErrorClass.load =>
    [errorText prog ("failed to load the extractor library: " ++ libraryArg opts)]
  | ErrorClass.resolve => [errorText prog "failed to resolve the extract function"]
  | ErrorClass.extraction => []

/-- No token of the argument vector and no result of the working-directory query
contains a line break. -/
abbrev noLineBreaks (env : Env) (argv : List String) : Prop :=
  (∀ t ∈ argv, '\n' ∉ t.data) ∧ (∀ cwd ∈ env.getcwd, '\n' ∉ cwd.data)

/-- The entries `printUsage` writes for program name `g`. -/
def usageEntries (g : String) : List String :=
  ["OVERVIEW: dyld shared cache extractor (" ++ prog_version ++ ")\n\n",
    "USAGE: " ++ g ++ " <cache file> [-v] [-d arg] [-l arg]\n\n",
    "OPTIONS:\n",
    "\t-v print verbose messages\n",
    "\t-d set destination path for the extracted files\n",
    "\t-l set path to dsc_extractor library\n",
    "\n"]

/-- A run of output entries that ends at a line end and holds no line beginning with
`error: `: in front of any further entries it leaves their error lines as they are. -/
def quietBlock (xs : List String) : Prop :=
  ∀ es : List String,
    (consoleLines (xs ++ es)).filter startsWithError = (consoleLines es).filter startsWithError

/-! ## Sample worlds -/

/-- A world where everything works: two progress reports, status 0. -/
def envOk : Env :=
  { dlopen := fun _ => some 7,
    dlsym := fun _ _ => some (fun _ _ => ([(1, 2), (2, 2)], 0)),
    getcwd := some "/tmp/work" }

/-- A world where the external routine reports failure with status 1. -/
def envFail : Env :=
  { dlopen := fun _ => some 7,
    dlsym := fun _ _ => some (fun _ _ => ([(1, 2)], 1)),
    getcwd := some "/tmp/work" }

/-- A world where the library cannot be loaded. -/
def envNoLib : Env :=
  { dlopen := fun _ => none,
    dlsym := fun _ _ => none,
    getcwd := some "/tmp/work" }

/-! ## The loop and its list form -/

theorem drop_eq_getD_cons (l : List String) (i : Nat) (h : i < l.length) :
    l.drop i = l.getD i "" :: l.drop (i + 1) := by
  rw [List.drop_eq_getElem_cons h]
  simp [List.getD_eq_getElem?_getD, List.getElem?_eq_getElem h]

theorem scan_nil (o : Options) : scan [] o = { o with _has_error := false } := by
  rw [scan.eq_def]

theorem scan_cons (opt : String) (rest : List String) (o : Options) :
    scan (opt :: rest) o =
      if opt = "-v" then scan rest { o with _verbose := true }
      else if opt = "-d" then
        match rest with
        | [] => { o with _error := "value must be specified for option: " ++ opt }
        | value :: rest => scan rest { o with _dest_path := value, _has_dest_path := true }
      else if opt = "-l" then
        match rest with
        | [] => { o with _error := "value must be specified for option: " ++ opt }
        | value :: rest => scan rest { o with _library_path := value, _has_library_path := true }
      else { o with _error := "unknown option: " ++ opt } := by
  rw [scan.eq_def]

theorem parseLoop_succ (fuel i : Nat) (o : Options) :
    Options.parseLoop (fuel + 1) i o =
      if i < o.argc then
        if o.argv.getD i "" = "-v" then
          Options.parseLoop fuel (i + 1) { o with _verbose := true }
        else if o.argv.getD i "" = "-d" then
          if i + 1 < o.argc then
            Options.parseLoop fuel (i + 1 + 1)
              { o with _dest_path := o.argv.getD (i + 1) "", _has_dest_path := true }
          else { o with _error := "value must be specified for option: " ++ "-d" }
        else if o.argv.getD i "" = "-l" then
          if i + 1 < o.argc then
            Options.parseLoop fuel (i + 1 + 1)
              { o with _library_path := o.argv.getD (i + 1) "", _has_library_path := true }
          else { o with _error := "value must be specified for option: " ++ "-l" }
        else { o with _error := "unknown option: " ++ o.argv.getD i "" }
      else { o with _has_error := false } := by
  by_cases h1 : i < o.argc
  · by_cases hv : o.argv.getD i "" = "-v"
    · simp only [Options.parseLoop, h1, hv, if_true]
    · by_cases hd : o.argv.getD i "" = "-d"
      · by_cases hn : i + 1 < o.argc
        · have hge : ¬ (i + 1 ≥ o.argc) := by omega
          simp only [Options.parseLoop, Options.getOptionValue, h1, hv, hd, hn, hge, if_true, if_false]
        · have hge : i + 1 ≥ o.argc := by omega
          simp only [Options.parseLoop, Options.getOptionValue, h1, hv, hd, hn, hge, if_true, if_false]
      · by_cases hl : o.argv.getD i "" = "-l"
        · by_cases hn : i + 1 < o.argc
          · have hge : ¬ (i + 1 ≥ o.argc) := by omega
            simp only [Options.parseLoop, Options.getOptionValue, h1, hv, hd, hl, hn, hge, if_true, if_false]
          · have hge : i + 1 ≥ o.argc := by omega
            simp only [Options.parseLoop, Options.getOptionValue, h1, hv, hd, hl, hn, hge, if_true, if_false]
            simp
        · simp only [Options.parseLoop, h1, hv, hd, hl, if_true, if_false]
  · simp only [Options.parseLoop, h1, if_false]

theorem parseLoop_eq_scan (fuel : Nat) : ∀ (i : Nat) (o : Options),
    o.argc = o.argv.length → i ≤ o.argv.length → o.argv.length - i < fuel →
    Options.parseLoop fuel i o = scan (o.argv.drop i) o := by
  induction fuel with
  | zero => intro i o _ _ h; omega
  | succ fuel ih =>
    intro i o hc hi hf
    rw [parseLoop_succ]
    by_cases hlt : i < o.argv.length
    · have h1 : i < o.argc := by omega
      rw [drop_eq_getD_cons _ _ hlt, if_pos h1]
      by_cases hv : o.argv.getD i "" = "-v"
      · rw [if_pos hv, scan_cons, if_pos hv]
        exact ih (i + 1) { o with _verbose := true } hc hlt (by show o.argv.length - (i + 1) < fuel; omega)
      · rw [if_neg hv]
        by_cases hd : o.argv.getD i "" = "-d"
        · rw [if_pos hd, scan_cons, if_neg hv, if_pos hd]
          by_cases hn : i + 1 < o.argv.length
          · have h2 : i + 1 < o.argc := by omega
            rw [if_pos h2, drop_eq_getD_cons _ _ hn]
            exact ih (i + 1 + 1) { o with _dest_path := o.argv.getD (i + 1) "", _has_dest_path := true }
              hc hn (by show o.argv.length - (i + 1 + 1) < fuel; omega)
          · have h2 : ¬ i + 1 < o.argc := by omega
            rw [if_neg h2, List.drop_eq_nil_of_le (by omega), hd]
        · rw [if_neg hd]
          by_cases hl : o.argv.getD i "" = "-l"
          · rw [if_pos hl, scan_cons, if_neg hv, if_neg hd, if_pos hl]
            by_cases hn : i + 1 < o.argv.length
            · have h2 : i + 1 < o.argc := by omega
              rw [if_pos h2, drop_eq_getD_cons _ _ hn]
              exact ih (i + 1 + 1)
                { o with _library_path := o.argv.getD (i + 1) "", _has_library_path := true }
                hc hn (by show o.argv.length - (i + 1 + 1) < fuel; omega)
            · have h2 : ¬ i + 1 < o.argc := by omega
              rw [if_neg h2, List.drop_eq_nil_of_le (by omega), hl]
          · rw [if_neg hl, scan_cons, if_neg hv, if_neg hd, if_neg hl]
    · have h1 : ¬ i < o.argc := by omega
      rw [if_neg h1, List.drop_eq_nil_of_le (by omega), scan_nil]

/-- The constructor in list form: fewer than two entries give the missing-file error,
otherwise the second entry is the input path and the rest is scanned. -/
theorem Options_eq_scan (prog input : String) (rest : List String) :
    Options.Options (prog :: input :: rest) =
      scan rest { argc := rest.length + 2, argv := prog :: input :: rest, _input_path := input } := by
  have h := parseLoop_eq_scan (rest.length + 2) 2
    { argc := rest.length + 2, argv := prog :: input :: rest, _input_path := input }
    (by simp) (by simp) (by simp)
  simpa [Options.Options] using h

/-! ## Well-formed items are consumed one by one -/

theorem scan_itemTokens_append (items : List Item) : ∀ (toks : List String) (o : Options),
    scan (itemTokens items ++ toks) o = scan toks (items.foldl applyItem o) := by
  induction items with
  | nil => intro toks o; rfl
  | cons it items ih =>
    intro toks o
    cases it with
    | v =>
      simp only [itemTokens, Item.tokens, List.cons_append, List.nil_append, List.foldl_cons]
      rw [scan_cons, if_pos rfl]
      exact ih toks _
    | d value =>
      simp only [itemTokens, Item.tokens, List.cons_append, List.nil_append, List.foldl_cons]
      rw [scan_cons, if_neg (by decide), if_pos rfl]
      exact ih toks _
    | l value =>
      simp only [itemTokens, Item.tokens, List.cons_append, List.nil_append, List.foldl_cons]
      rw [scan_cons, if_neg (by decide), if_neg (by decide), if_pos rfl]
      exact ih toks _

theorem foldl_applyItem_fixed (items : List Item) : ∀ o : Options,
    (items.foldl applyItem o).argc = o.argc ∧ (items.foldl applyItem o).argv = o.argv ∧
    (items.foldl applyItem o)._has_error = o._has_error ∧
    (items.foldl applyItem o)._error = o._error ∧
    (items.foldl applyItem o)._input_path = o._input_path := by
  induction items with
  | nil => intro o; simp
  | cons it items ih =>
    intro o
    rw [List.foldl_cons]
    have h := ih (applyItem o it)
    cases it <;> exact h

theorem foldl_applyItem_verbose (items : List Item) : ∀ o : Options,
    (items.foldl applyItem o)._verbose = (o._verbose || refVerbose items) := by
  induction items with
  | nil => intro o; simp [refVerbose]
  | cons it items ih =>
    intro o
    rw [List.foldl_cons, ih]
    cases it <;> simp [applyItem, refVerbose]

theorem getLast?_cons_getD (a x : String) (l : List String) :
    ((a :: l).getLast?).getD x = (l.getLast?).getD a := by
  cases l with
  | nil => rfl
  | cons b l =>
    rw [List.getLast?_cons_cons]
    cases h : (b :: l).getLast? with
    | none => simp at h
    | some c => rfl

theorem getLast?_cons_isSome (a : String) (l : List String) :
    ((a :: l).getLast?).isSome = true := by
  cases h : (a :: l).getLast? with
  | none => simp at h
  | some b => rfl

theorem foldl_applyItem_dest (items : List Item) : ∀ o : Options,
    (items.foldl applyItem o)._has_dest_path = (o._has_dest_path || (refDest items).isSome) ∧
    (items.foldl applyItem o)._dest_path = (refDest items).getD o._dest_path := by
  induction items with
  | nil => intro o; simp [refDest, destValues]
  | cons it items ih =>
    intro o
    rw [List.foldl_cons]
    have h := ih (applyItem o it)
    cases it with
    | v => simpa [applyItem, refDest, destValues] using h
    | l value => simpa [applyItem, refDest, destValues] using h
    | d value =>
      simp only [applyItem, refDest] at h
      simp only [refDest, destValues, getLast?_cons_getD, getLast?_cons_isSome, Bool.or_true]
      exact ⟨h.1.trans (by simp), h.2⟩

theorem foldl_applyItem_library (items : List Item) : ∀ o : Options,
    (items.foldl applyItem o)._has_library_path =
      (o._has_library_path || (refLibrary items).isSome) ∧
    (items.foldl applyItem o)._library_path = (refLibrary items).getD o._library_path := by
  induction items with
  | nil => intro o; simp [refLibrary, libraryValues]
  | cons it items ih =>
    intro o
    rw [List.foldl_cons]
    have h := ih (applyItem o it)
    cases it with
    | v => simpa [applyItem, refLibrary, libraryValues] using h
    | d value => simpa [applyItem, refLibrary, libraryValues] using h
    | l value =>
      simp only [applyItem, refLibrary] at h
      simp only [refLibrary, libraryValues, getLast?_cons_getD, getLast?_cons_isSome, Bool.or_true]
      exact ⟨h.1.trans (by simp), h.2⟩

/-! ## A successful scan reads a sequence of items, and only one -/

theorem scan_success_items (n : Nat) : ∀ (toks : List String) (o : Options),
    toks.length ≤ n → o._has_error = true → (scan toks o)._has_error = false →
    ∃ items, toks = itemTokens items := by
  induction n with
  | zero =>
    intro toks o hn _ _
    cases toks with
    | nil => exact ⟨[], rfl⟩
    | cons a l => simp at hn
  | succ n ih =>
    intro toks o hn ho h
    cases toks with
    | nil => exact ⟨[], rfl⟩
    | cons opt rest =>
      rw [scan_cons] at h
      have hr : rest.length ≤ n := by simpa using hn
      by_cases hv : opt = "-v"
      · rw [if_pos hv] at h
        obtain ⟨items, hi⟩ := ih rest { o with _verbose := true } hr ho h
        exact ⟨Item.v :: items, by rw [hv, hi]; rfl⟩
      · rw [if_neg hv] at h
        by_cases hd : opt = "-d"
        · rw [if_pos hd] at h
          cases rest with
          | nil => simp only [ho] at h; cases h
          | cons value rest =>
            obtain ⟨items, hi⟩ := ih rest { o with _dest_path := value, _has_dest_path := true }
              (by simp at hr; omega) ho h
            exact ⟨Item.d value :: items, by rw [hd, hi]; rfl⟩
        · rw [if_neg hd] at h
          by_cases hl : opt = "-l"
          · rw [if_pos hl] at h
            cases rest with
            | nil => simp only [ho] at h; cases h
            | cons value rest =>
              obtain ⟨items, hi⟩ := ih rest
                { o with _library_path := value, _has_library_path := true }
                (by simp at hr; omega) ho h
              exact ⟨Item.l value :: items, by rw [hl, hi]; rfl⟩
          · rw [if_neg hl] at h
            simp only [ho] at h
            cases h

theorem itemTokens_injective (items : List Item) : ∀ items2 : List Item,
    itemTokens items = itemTokens items2 → items = items2 := by
  induction items with
  | nil =>
    intro items2 h
    cases items2 with
    | nil => rfl
    | cons it2 l2 => cases it2 <;> simp [itemTokens, Item.tokens] at h
  | cons it items ih =>
    intro items2 h
    cases items2 with
    | nil => cases it <;> simp [itemTokens, Item.tokens] at h
    | cons it2 l2 =>
      cases it <;> cases it2 <;> simp [itemTokens, Item.tokens] at h
      · rw [ih l2 h]
      · rw [h.1, ih l2 h.2]
      · rw [h.1, ih l2 h.2]

theorem Options_of_items (prog input : String) (items : List Item) (toks : List String) :
    Options.Options (prog :: input :: (itemTokens items ++ toks)) =
      scan toks (items.foldl applyItem (startOptions prog input (itemTokens items ++ toks))) := by
  rw [Options_eq_scan, scan_itemTokens_append]
  rfl

/-- What a successful parse exposes, in terms of the items it has read. -/
theorem Options_fields_of_items (prog input : String) (items : List Item) :
    (Options.Options (prog :: input :: itemTokens items)).hasError = false ∧
    (Options.Options (prog :: input :: itemTokens items)).inputPath = input ∧
    (Options.Options (prog :: input :: itemTokens items)).verbose = refVerbose items ∧
    (Options.Options (prog :: input :: itemTokens items)).hasDestPath = (refDest items).isSome ∧
    (Options.Options (prog :: input :: itemTokens items)).destPath = (refDest items).getD "" ∧
    (Options.Options (prog :: input :: itemTokens items)).hasLibraryPath =
      (refLibrary items).isSome ∧
    (Options.Options (prog :: input :: itemTokens items)).libraryPath =
      (refLibrary items).getD "" := by
  have h := Options_of_items prog input items []
  rw [List.append_nil] at h
  rw [h, scan_nil]
  have hf := foldl_applyItem_fixed items (startOptions prog input (itemTokens items))
  have hv := foldl_applyItem_verbose items (startOptions prog input (itemTokens items))
  have hd := foldl_applyItem_dest items (startOptions prog input (itemTokens items))
  have hl := foldl_applyItem_library items (startOptions prog input (itemTokens items))
  refine ⟨rfl, ?_, ?_, ?_, ?_, ?_, ?_⟩
  · exact hf.2.2.2.2
  · exact hv.trans (by simp [startOptions])
  · exact hd.1.trans (by simp [startOptions])
  · exact hd.2
  · exact hl.1.trans (by simp [startOptions])
  · exact hl.2

theorem Options_success_items (argv : List String)
    (h : (Options.Options argv).hasError = false) :
    ∃ prog input items, argv = prog :: input :: itemTokens items := by
  cases argv with
  | nil => simp [Options.Options, Options.hasError] at h
  | cons prog l =>
    cases l with
    | nil => simp [Options.Options, Options.hasError] at h
    | cons input rest =>
      rw [Options_eq_scan] at h
      obtain ⟨items, hi⟩ := scan_success_items rest.length rest _ (Nat.le_refl _) rfl h
      exact ⟨prog, input, items, by rw [hi]⟩

theorem exposed_after_items (prog input : String) (items : List Item) (toks : List String)
    (e : String) :
    Options.exposed
        { items.foldl applyItem (startOptions prog input toks) with _error := e } =
      (true, e, input, refVerbose items, (refDest items).isSome, (refDest items).getD "",
        (refLibrary items).isSome, (refLibrary items).getD "") := by
  have hf := foldl_applyItem_fixed items (startOptions prog input toks)
  have hv := foldl_applyItem_verbose items (startOptions prog input toks)
  have hd := foldl_applyItem_dest items (startOptions prog input toks)
  have hl := foldl_applyItem_library items (startOptions prog input toks)
  simp only [Options.exposed, Options.hasError, Options.error, Options.inputPath,
    Options.verbose, Options.hasDestPath, Options.destPath, Options.hasLibraryPath,
    Options.libraryPath, hf.2.2.1, hf.2.2.2.2, hv, hd.1, hd.2, hl.1, hl.2]
  simp [startOptions]

theorem Options_missing_value (prog input : String) (items : List Item) (opt : String)
    (h : opt = "-d" ∨ opt = "-l") :
    Options.exposed (Options.Options (prog :: input :: (itemTokens items ++ [opt]))) =
      (true, "value must be specified for option: " ++ opt, input, refVerbose items,
        (refDest items).isSome, (refDest items).getD "",
        (refLibrary items).isSome, (refLibrary items).getD "") := by
  rw [Options_of_items, scan_cons]
  rcases h with h | h
  · rw [if_neg (by rw [h]; decide), if_pos h]
    exact exposed_after_items prog input items _ _
  · rw [if_neg (by rw [h]; decide), if_neg (by rw [h]; decide), if_pos h]
    exact exposed_after_items prog input items _ _

theorem Options_unknown_option (prog input : String) (items : List Item) (t : String)
    (rest : List String) (hv : t ≠ "-v") (hd : t ≠ "-d") (hl : t ≠ "-l") :
    Options.exposed (Options.Options (prog :: input :: (itemTokens items ++ t :: rest))) =
      (true, "unknown option: " ++ t, input, refVerbose items,
        (refDest items).isSome, (refDest items).getD "",
        (refLibrary items).isSome, (refLibrary items).getD "") := by
  rw [Options_of_items, scan_cons, if_neg hv, if_neg hd, if_neg hl]
  exact exposed_after_items prog input items _ _

/-! ## The option parser -/

/-- Claim C1: constructing `Options` succeeds exactly when the vector has a program name,
an input path, and after them a sequence of items `-v`, `-d value`, `-l value`. -/
theorem c1_options_succeeds_iff_items (argv : List String) :
    (Options.Options argv).hasError = false ↔
      ∃ prog input items, argv = prog :: input :: itemTokens items := by
  constructor
  · exact Options_success_items argv
  · rintro ⟨prog, input, items, rfl⟩
    exact (Options_fields_of_items prog input items).1

/-- Claim C3, as the code has it: when the tokens between the input path and a final
`-d` or `-l` form a sequence of items, so that the parser reaches that final token as an
option, the error is "value must be specified for option: " followed by that option. -/
theorem c3_missing_value_after_items (prog input : String) (items : List Item) (opt : String)
    (h : opt = "-d" ∨ opt = "-l") :
    (Options.Options (prog :: input :: (itemTokens items ++ [opt]))).hasError = true ∧
    (Options.Options (prog :: input :: (itemTokens items ++ [opt]))).error =
      "value must be specified for option: " ++ opt := by
  have hx := Options_missing_value prog input items opt h
  simp only [Options.exposed, Prod.mk.injEq] at hx
  exact ⟨hx.1, hx.2.1⟩

theorem c3_missing_value_after_items_witness :
    (Options.Options ("prog" :: "cache.bin" :: (itemTokens [Item.v, Item.l "x"] ++ ["-d"]))).hasError
        = true ∧
    (Options.Options ("prog" :: "cache.bin" :: (itemTokens [Item.v, Item.l "x"] ++ ["-d"]))).error =
      "value must be specified for option: " ++ "-d" :=
  c3_missing_value_after_items "prog" "cache.bin" [Item.v, Item.l "x"] "-d" (Or.inl rfl)

/-- The last token is `-d` in each of these three vectors, yet the first two parse without
error (the `-d` is the input path, or the value of the `-d` before it) and the third
reports the unknown option in front of it. -/
theorem c3_last_token_counterexample :
    (["prog", "-d"].getLast? = some "-d" ∧
      (Options.Options ["prog", "-d"]).hasError = false) ∧
    (["prog", "c", "-d", "-d"].getLast? = some "-d" ∧
      (Options.Options ["prog", "c", "-d", "-d"]).hasError = false ∧
      (Options.Options ["prog", "c", "-d", "-d"]).destPath = "-d") ∧
    (["prog", "c", "-x", "-d"].getLast? = some "-d" ∧
      (Options.Options ["prog", "c", "-x", "-d"]).error = "unknown option: -x" ∧
      (Options.Options ["prog", "c", "-x", "-d"]).error ≠
        "value must be specified for option: -d") := by
  decide

/-- Claim C4, as the code has it: when the tokens between the input path and `t` form a
sequence of items, so that `t` is the first token the parser does not recognise, the error
is "unknown option: " followed by `t`, and everything the object exposes is the same
whatever tokens follow `t`. -/
theorem c4_first_unknown_option_halts (prog input : String) (items : List Item) (t : String)
    (rest : List String) (hv : t ≠ "-v") (hd : t ≠ "-d") (hl : t ≠ "-l") :
    (Options.Options (prog :: input :: (itemTokens items ++ t :: rest))).hasError = true ∧
    (Options.Options (prog :: input :: (itemTokens items ++ t :: rest))).error =
      "unknown option: " ++ t ∧
    ∀ rest2 : List String,
      Options.exposed (Options.Options (prog :: input :: (itemTokens items ++ t :: rest2))) =
        Options.exposed (Options.Options (prog :: input :: (itemTokens items ++ t :: rest))) := by
  have hx := Options_unknown_option prog input items t rest hv hd hl
  refine ⟨?_, ?_, ?_⟩
  · simp only [Options.exposed, Prod.mk.injEq] at hx
    exact hx.1
  · simp only [Options.exposed, Prod.mk.injEq] at hx
    exact hx.2.1
  · intro rest2
    rw [hx, Options_unknown_option prog input items t rest2 hv hd hl]

theorem c4_first_unknown_option_halts_witness :
    (Options.Options ("prog" :: "c" :: (itemTokens [Item.d "/out"] ++ "-x" :: ["-v"]))).hasError
        = true ∧
    (Options.Options ("prog" :: "c" :: (itemTokens [Item.d "/out"] ++ "-x" :: ["-v"]))).error =
      "unknown option: " ++ "-x" ∧
    ∀ rest2 : List String,
      Options.exposed
          (Options.Options ("prog" :: "c" :: (itemTokens [Item.d "/out"] ++ "-x" :: rest2))) =
        Options.exposed
          (Options.Options ("prog" :: "c" :: (itemTokens [Item.d "/out"] ++ "-x" :: ["-v"]))) :=
  c4_first_unknown_option_halts "prog" "c" [Item.d "/out"] "-x" ["-v"]
    (by decide) (by decide) (by decide)

/-- The token `-y` of this vector is none of `-v`, `-d`, `-l`, and the error names `-x`,
the unknown token in front of it; the tokens `cache.bin` and `/out` of the second vector
are none of the three either, and that vector parses without error. -/
theorem c4_any_token_counterexample :
    ("-y" ∈ ["prog", "c", "-x", "-y"] ∧ "-y" ≠ "-v" ∧ "-y" ≠ "-d" ∧ "-y" ≠ "-l" ∧
      (Options.Options ["prog", "c", "-x", "-y"]).error = "unknown option: -x" ∧
      (Options.Options ["prog", "c", "-x", "-y"]).error ≠ "unknown option: -y") ∧
    ("/out" ∈ ["prog", "cache.bin", "-d", "/out"] ∧
      "/out" ≠ "-v" ∧ "/out" ≠ "-d" ∧ "/out" ≠ "-l" ∧
      (Options.Options ["prog", "cache.bin", "-d", "/out"]).hasError = false) := by
  decide

/-- Claim C10: after a successful parse the vector is a program name, an input path and
one sequence of items (no other sequence has the same tokens), and the object exposes the
input path verbatim, verbose iff some item is `-v`, and for `-d` and `-l` whether such an
item exists and the value of the last one; the value of an item is never read as a flag. -/
theorem c10_fields_follow_items (argv : List String)
    (h : (Options.Options argv).hasError = false) :
    ∃ prog input items, argv = prog :: input :: itemTokens items ∧
      (∀ items2, argv = prog :: input :: itemTokens items2 → items2 = items) ∧
      (Options.Options argv).inputPath = input ∧
      (Options.Options argv).verbose = refVerbose items ∧
      (Options.Options argv).hasDestPath = (refDest items).isSome ∧
      (Options.Options argv).destPath = (refDest items).getD "" ∧
      (Options.Options argv).hasLibraryPath = (refLibrary items).isSome ∧
      (Options.Options argv).libraryPath = (refLibrary items).getD "" := by
  obtain ⟨prog, input, items, rfl⟩ := Options_success_items argv h
  refine ⟨prog, input, items, rfl, ?_, (Options_fields_of_items prog input items).2⟩
  intro items2 h2
  have h3 : itemTokens items = itemTokens items2 := by
    have := List.cons.inj (List.cons.inj h2).2
    exact this.2
  exact (itemTokens_injective items items2 h3).symm

theorem c10_fields_follow_items_witness :
    ((Options.Options ["prog", "c", "-d", "-v"]).destPath = "-v" ∧
      (Options.Options ["prog", "c", "-d", "-v"]).verbose = false ∧
      (Options.Options ["prog", "-v"]).inputPath = "-v") ∧
    ∃ prog input items, ["prog", "c", "-d", "-v"] = prog :: input :: itemTokens items ∧
      (∀ items2, ["prog", "c", "-d", "-v"] = prog :: input :: itemTokens items2 →
        items2 = items) ∧
      (Options.Options ["prog", "c", "-d", "-v"]).inputPath = input ∧
      (Options.Options ["prog", "c", "-d", "-v"]).verbose = refVerbose items ∧
      (Options.Options ["prog", "c", "-d", "-v"]).hasDestPath = (refDest items).isSome ∧
      (Options.Options ["prog", "c", "-d", "-v"]).destPath = (refDest items).getD "" ∧
      (Options.Options ["prog", "c", "-d", "-v"]).hasLibraryPath = (refLibrary items).isSome ∧
      (Options.Options ["prog", "c", "-d", "-v"]).libraryPath = (refLibrary items).getD "" :=
  ⟨by decide, c10_fields_follow_items ["prog", "c", "-d", "-v"] (by decide)⟩

/-! ## The console and the trace under the printing functions -/

@[simp]
theorem cout_trace (s : State) (text : String) : (s.cout text).trace = s.trace := rfl
@[simp]
theorem cout_out (s : State) (text : String) : (s.cout text).out = s.out ++ [text] := rfl
@[simp]
theorem cout_verbose (s : State) (text : String) :
    (s.cout text).g_verbose = s.g_verbose := rfl
@[simp]
theorem cout_cmdline (s : State) (text : String) :
    (s.cout text).g_cmdline = s.g_cmdline := rfl
@[simp]
theorem call_trace (s : State) (a : Action) : (s.call a).trace = s.trace ++ [a] := rfl
@[simp]
theorem call_out (s : State) (a : Action) : (s.call a).out = s.out := rfl
@[simp]
theorem call_verbose (s : State) (a : Action) : (s.call a).g_verbose = s.g_verbose := rfl
@[simp]
theorem call_cmdline (s : State) (a : Action) : (s.call a).g_cmdline = s.g_cmdline := rfl

@[simp]
theorem printVerbose_trace (str : String) (s : State) :
    (printVerbose str s).trace = s.trace := by
  unfold printVerbose; split <;> rfl

@[simp]
theorem printVerbose_verbose (str : String) (s : State) :
    (printVerbose str s).g_verbose = s.g_verbose := by
  unfold printVerbose; split <;> rfl

@[simp]
theorem printVerbose_cmdline (str : String) (s : State) :
    (printVerbose str s).g_cmdline = s.g_cmdline := by
  unfold printVerbose; split <;> rfl

theorem printVerbose_out (str : String) (s : State) :
    (printVerbose str s).out = s.out ++ (if s.g_verbose then [verboseLine str] else []) := by
  unfold printVerbose verboseLine; split <;> simp

@[simp]
theorem printError_trace (e : String) (s : State) :
    (printError e s).trace = s.trace := rfl

@[simp]
theorem printError_out (e : String) (s : State) :
    (printError e s).out = s.out ++ [errorLine s.g_cmdline e] := rfl

@[simp]
theorem printUsage_trace (s : State) : (printUsage s).trace = s.trace := rfl

@[simp]
theorem printUsage_cmdline (s : State) : (printUsage s).g_cmdline = s.g_cmdline := rfl

theorem progressBlock_eq (current total : Nat) (first : Bool) (s : State) :
    Extractor.progressBlock current total (first, s) =
      (false,
        { s with out := s.out ++
            ((if first && s.g_verbose then [verboseLine "the cache file seems to be good!"]
              else []) ++ [progressLine (current, total)]) }) := by
  cases first <;> cases hv : s.g_verbose <;>
    simp [Extractor.progressBlock, printVerbose, State.cout, hv, verboseLine, progressLine]

theorem runProgress_eq (calls : List (Nat × Nat)) : ∀ (first : Bool) (s : State),
    Extractor.runProgress calls (first, s) =
      (first && calls.isEmpty,
        { s with out := s.out ++
            ((if first && s.g_verbose && !calls.isEmpty
                then [verboseLine "the cache file seems to be good!"] else []) ++
              calls.map progressLine) }) := by
  induction calls with
  | nil => intro first s; simp [Extractor.runProgress]
  | cons ct calls ih =>
    intro first s
    have h : Extractor.runProgress (ct :: calls) (first, s) =
        Extractor.runProgress calls (Extractor.progressBlock ct.1 ct.2 (first, s)) := rfl
    rw [h, progressBlock_eq, ih]
    cases first <;> cases s.g_verbose <;> simp

/-! ## The runs of main, case by case -/

/-- The state in which `main` resolves the destination after a successful parse. -/
theorem resolveDest_fst (env : Env) (opts : Options) (s : State) :
    (resolveDest env opts s).1 = expectedDest env opts := by
  unfold resolveDest expectedDest
  split
  · rfl
  · cases env.getcwd <;> rfl

theorem resolveDest_some (env : Env) (opts : Options) (s : State) (dest : String)
    (h : expectedDest env opts = some dest) : resolveDest env opts s = (some dest, s) := by
  unfold resolveDest
  unfold expectedDest at h
  split
  · rename_i hd; rw [if_pos hd] at h; rw [← h]
  · rename_i hd
    rw [if_neg hd] at h
    rw [h]

theorem resolveDest_none (env : Env) (opts : Options) (s : State)
    (h : expectedDest env opts = none) :
    resolveDest env opts s = (none, printError "failed to get current working directory" s) := by
  unfold resolveDest
  unfold expectedDest at h
  split
  · rename_i hd; rw [if_pos hd] at h; cases h
  · rename_i hd
    rw [if_neg hd] at h
    rw [h]

theorem main_parse_error (env : Env) (argv : List String)
    (h : (Options.Options argv).hasError = true) :
    main env argv =
      (Exit.returned 1,
        printError (Options.Options argv).error (printUsage { g_cmdline := argv.headD "" })) := by
  simp only [main, h, if_true]

theorem main_abort (env : Env) (argv : List String)
    (h : (Options.Options argv).hasError = false)
    (hd : expectedDest env (Options.Options argv) = none) :
    main env argv =
      (Exit.aborted,
        printError "failed to get current working directory"
          { g_cmdline := argv.headD "", g_verbose := (Options.Options argv).verbose }) := by
  simp only [main, h, resolveDest_none _ _ _ hd]
  rfl

theorem main_load_fail (env : Env) (argv : List String) (dest : String)
    (h : (Options.Options argv).hasError = false)
    (hd : expectedDest env (Options.Options argv) = some dest)
    (hl : env.dlopen (libraryArg (Options.Options argv)) = none) :
    main env argv =
      (Exit.returned 1,
        printError
          ("failed to load the extractor library: " ++ libraryArg (Options.Options argv))
          ((printVerbose "loading the extractor library..."
            (printVerbose ("extracted files will be in " ++ dest)
              { g_cmdline := argv.headD "", g_verbose := (Options.Options argv).verbose })).call
            (Action.load (libraryArg (Options.Options argv))))) := by
  simp only [main, h, resolveDest_some _ _ _ _ hd, Extractor.Extractor, hl]
  rfl

theorem main_resolve_fail (env : Env) (argv : List String) (dest : String) (handle : Nat)
    (h : (Options.Options argv).hasError = false)
    (hd : expectedDest env (Options.Options argv) = some dest)
    (hl : env.dlopen (libraryArg (Options.Options argv)) = some handle)
    (hs : env.dlsym handle extractSymbol = none) :
    main env argv =
      (Exit.returned 1,
        printError "failed to resolve the extract function"
          (((printVerbose "loading the extractor library..."
            (printVerbose ("extracted files will be in " ++ dest)
              { g_cmdline := argv.headD "", g_verbose := (Options.Options argv).verbose })).call
            (Action.load (libraryArg (Options.Options argv)))).call
            (Action.resolve extractSymbol))) := by
  unfold extractSymbol at hs
  simp only [main, h, resolveDest_some _ _ _ _ hd, Extractor.Extractor, hl, hs]
  rfl

theorem main_extract (env : Env) (argv : List String) (dest : String) (handle : Nat)
    (f : ExtractFunc)
    (h : (Options.Options argv).hasError = false)
    (hd : expectedDest env (Options.Options argv) = some dest)
    (hl : env.dlopen (libraryArg (Options.Options argv)) = some handle)
    (hs : env.dlsym handle extractSymbol = some f) :
    main env argv =
      (Exit.returned (if (f (Options.Options argv).inputPath dest).2 = 0 then 0 else 1),
        ((Extractor.runProgress (f (Options.Options argv).inputPath dest).1
            (true, stateAtInvoke argv dest)).2.cout "\n").cout
          (if (f (Options.Options argv).inputPath dest).2 = 0 then "done, have fun!\n"
            else "extract failed!\n")) := by
  unfold extractSymbol at hs
  by_cases hz : (f (Options.Options argv).inputPath dest).2 = 0
  · simp [main, h, resolveDest_some _ _ _ _ hd, Extractor.Extractor, hl, hs,
      Extractor.extract, Extractor.hasError, hz, stateAtInvoke, extractSymbol]
  · have hb : ((f (Options.Options argv).inputPath dest).2 == 0) = false := by
      simpa using hz
    simp [main, h, resolveDest_some _ _ _ _ hd, Extractor.Extractor, hl, hs,
      Extractor.extract, Extractor.hasError, hz, hb, stateAtInvoke, extractSymbol]

/-! ## Which console entries are error lines -/

@[simp]
theorem startsWithError_errorLine (prog msg : String) :
    startsWithError (errorLine prog msg) = true := by
  simp [startsWithError, errorLine, String.data_append, List.isPrefixOf]

@[simp]
theorem startsWithError_verboseLine (str : String) :
    startsWithError (verboseLine str) = false := by
  simp [startsWithError, verboseLine, String.data_append, List.isPrefixOf]

@[simp]
theorem startsWithError_progressLine (ct : Nat × Nat) :
    startsWithError (progressLine ct) = false := by
  simp [startsWithError, progressLine, String.data_append, List.isPrefixOf]

theorem filter_progressLines (calls : List (Nat × Nat)) :
    (calls.map progressLine).filter startsWithError = [] := by
  induction calls with
  | nil => rfl
  | cons ct calls ih => simp [List.filter_cons, ih]

theorem progressLine_ne_verboseLine (ct : Nat × Nat) (str : String) :
    progressLine ct ≠ verboseLine str := by
  intro h
  have := congrArg String.data h
  simp [progressLine, verboseLine, String.data_append] at this

theorem filter_printVerbose (str : String) (s : State) :
    (printVerbose str s).out.filter startsWithError = s.out.filter startsWithError := by
  rw [printVerbose_out]
  cases s.g_verbose <;> simp [List.filter_append, List.filter_cons]

theorem filter_printUsage (s : State) :
    (printUsage s).out.filter startsWithError = s.out.filter startsWithError := by
  simp [printUsage, List.filter_append, List.filter_cons, startsWithError, String.data_append,
    List.isPrefixOf, prog_version]

theorem filter_runProgress (calls : List (Nat × Nat)) (first : Bool) (s : State) :
    (Extractor.runProgress calls (first, s)).2.out.filter startsWithError =
      s.out.filter startsWithError := by
  rw [runProgress_eq]
  simp only [List.filter_append, filter_progressLines, List.append_nil]
  split <;> simp [List.filter_cons]

theorem runProgress_trace (calls : List (Nat × Nat)) (first : Bool) (s : State) :
    (Extractor.runProgress calls (first, s)).2.trace = s.trace := by
  rw [runProgress_eq]

theorem stateAtInvoke_trace (argv : List String) (dest : String) :
    (stateAtInvoke argv dest).trace =
      [Action.load (libraryArg (Options.Options argv)), Action.resolve extractSymbol,
        Action.invoke (Options.Options argv).inputPath dest] := by
  simp [stateAtInvoke]

theorem stateAtInvoke_filter (argv : List String) (dest : String) :
    (stateAtInvoke argv dest).out.filter startsWithError = [] := by
  simp [stateAtInvoke, filter_printVerbose]

/-! ## The run as a whole -/

theorem Options_short (argv : List String) (h : argv.length < 2) :
    (Options.Options argv).hasError = true ∧
    (Options.Options argv).error = "the cache file must be specified" := by
  simp [Options.Options, Options.hasError, Options.error, h]

/-- Claim C2: when no token follows the program name (`argc < 2`), `Options` reports the
error "the cache file must be specified", and `main` returns 1 without a single external
call (no load, no resolve, no extraction). -/
theorem c2_missing_input_path (env : Env) (argv : List String) (h : argv.length < 2) :
    (Options.Options argv).hasError = true ∧
    (Options.Options argv).error = "the cache file must be specified" ∧
    (main env argv).1 = Exit.returned 1 ∧
    (main env argv).2.trace = [] := by
  have ho := Options_short argv h
  refine ⟨ho.1, ho.2, ?_, ?_⟩
  · rw [main_parse_error env argv ho.1]
  · rw [main_parse_error env argv ho.1]
    simp

theorem c2_missing_input_path_witness :
    (Options.Options ["prog"]).hasError = true ∧
    (Options.Options ["prog"]).error = "the cache file must be specified" ∧
    (main envOk ["prog"]).1 = Exit.returned 1 ∧
    (main envOk ["prog"]).2.trace = [] :=
  c2_missing_input_path envOk ["prog"] (by decide)

/-- Claim C5: provided the working-directory query succeeds whenever parsing succeeded
without a `-d`, `main` returns 0 exactly when parsing succeeded, the library loaded, the
entry point resolved and the external routine returned 0, and returns 1 otherwise. -/
theorem c5_exit_code (env : Env) (argv : List String)
    (hcwd : (Options.Options argv).hasError = false →
      (Options.Options argv).hasDestPath = false → env.getcwd ≠ none) :
    ((main env argv).1 = Exit.returned 0 ↔
      (Options.Options argv).hasError = false ∧
      ∃ dest handle f, expectedDest env (Options.Options argv) = some dest ∧
        env.dlopen (libraryArg (Options.Options argv)) = some handle ∧
        env.dlsym handle extractSymbol = some f ∧
        (f (Options.Options argv).inputPath dest).2 = 0) ∧
    ((main env argv).1 ≠ Exit.returned 0 → (main env argv).1 = Exit.returned 1) := by
  cases h : (Options.Options argv).hasError with
  | true =>
    rw [main_parse_error env argv h]
    simp
  | false =>
    cases hd : expectedDest env (Options.Options argv) with
    | none =>
      exfalso
      unfold expectedDest at hd
      by_cases hp : (Options.Options argv).hasDestPath = true
      · rw [if_pos hp] at hd; cases hd
      · rw [if_neg hp] at hd
        exact hcwd h (by simpa using hp) hd
    | some dest =>
      cases hl : env.dlopen (libraryArg (Options.Options argv)) with
      | none =>
        rw [main_load_fail env argv dest h hd hl]
        simp
      | some handle =>
        cases hs : env.dlsym handle extractSymbol with
        | none =>
          rw [main_resolve_fail env argv dest handle h hd hl hs]
          simp [hs]
        | some f =>
          rw [main_extract env argv dest handle f h hd hl hs]
          by_cases hz : (f (Options.Options argv).inputPath dest).2 = 0
          · simp [hz, hs]
          · simp [hz, hs]

theorem c5_exit_code_witness :
    ((main envOk ["prog", "cache.bin"]).1 = Exit.returned 0 ↔
      (Options.Options ["prog", "cache.bin"]).hasError = false ∧
      ∃ dest handle f, expectedDest envOk (Options.Options ["prog", "cache.bin"]) = some dest ∧
        envOk.dlopen (libraryArg (Options.Options ["prog", "cache.bin"])) = some handle ∧
        envOk.dlsym handle extractSymbol = some f ∧
        (f (Options.Options ["prog", "cache.bin"]).inputPath dest).2 = 0) ∧
    ((main envOk ["prog", "cache.bin"]).1 ≠ Exit.returned 0 →
      (main envOk ["prog", "cache.bin"]).1 = Exit.returned 1) :=
  c5_exit_code envOk ["prog", "cache.bin"] (fun _ _ => by decide)

theorem expectedTrace_cases (env : Env) (argv : List String) :
    ((Options.Options argv).hasError = true → expectedTrace env argv = []) ∧
    ((Options.Options argv).hasError = false →
      expectedDest env (Options.Options argv) = none → expectedTrace env argv = []) ∧
    (∀ dest, (Options.Options argv).hasError = false →
      expectedDest env (Options.Options argv) = some dest →
      env.dlopen (libraryArg (Options.Options argv)) = none →
      expectedTrace env argv = [Action.load (libraryArg (Options.Options argv))]) ∧
    (∀ dest handle, (Options.Options argv).hasError = false →
      expectedDest env (Options.Options argv) = some dest →
      env.dlopen (libraryArg (Options.Options argv)) = some handle →
      env.dlsym handle extractSymbol = none →
      expectedTrace env argv =
        [Action.load (libraryArg (Options.Options argv)), Action.resolve extractSymbol]) ∧
    (∀ dest handle f, (Options.Options argv).hasError = false →
      expectedDest env (Options.Options argv) = some dest →
      env.dlopen (libraryArg (Options.Options argv)) = some handle →
      env.dlsym handle extractSymbol = some f →
      expectedTrace env argv =
        [Action.load (libraryArg (Options.Options argv)), Action.resolve extractSymbol,
          Action.invoke (Options.Options argv).inputPath dest]) := by
  refine ⟨?_, ?_, ?_, ?_, ?_⟩
  · intro h; simp [expectedTrace, h]
  · intro h hd; simp [expectedTrace, h, hd]
  · intro dest h hd hl; simp [expectedTrace, h, hd, hl]
  · intro dest handle h hd hl hs; simp [expectedTrace, h, hd, hl, hs]
  · intro dest handle f h hd hl hs; simp [expectedTrace, h, hd, hl, hs]

theorem trace_of_run (env : Env) (argv : List String) :
    (main env argv).2.trace = expectedTrace env argv ∧
    (main env argv).2.trace.map Action.kind <+:
      [ActionKind.load, ActionKind.resolve, ActionKind.invoke] ∧
    ((main env argv).2.trace.map Action.kind).count ActionKind.invoke ≤ 1 := by
  obtain ⟨e1, e2, e3, e4, e5⟩ := expectedTrace_cases env argv
  cases h : (Options.Options argv).hasError with
  | true =>
    rw [main_parse_error env argv h, e1 h]
    simp
  | false =>
    cases hd : expectedDest env (Options.Options argv) with
    | none =>
      rw [main_abort env argv h hd, e2 h hd]
      simp
    | some dest =>
      cases hl : env.dlopen (libraryArg (Options.Options argv)) with
      | none =>
        rw [main_load_fail env argv dest h hd hl, e3 dest h hd hl]
        refine ⟨by simp, ?_, by simp [Action.kind]⟩
        exact ⟨[ActionKind.resolve, ActionKind.invoke], by simp [Action.kind]⟩
      | some handle =>
        cases hs : env.dlsym handle extractSymbol with
        | none =>
          rw [main_resolve_fail env argv dest handle h hd hl hs, e4 dest handle h hd hl hs]
          refine ⟨by simp, ?_, by simp [Action.kind]⟩
          exact ⟨[ActionKind.invoke], by simp [Action.kind]⟩
        | some f =>
          rw [main_extract env argv dest handle f h hd hl hs, e5 dest handle f h hd hl hs]
          simp [runProgress_trace, stateAtInvoke_trace, Action.kind]

/-- Claim C6: the external calls of a run are exactly the expected ones: none after a parse
error, otherwise load, resolve, invoke in this order, stopping after the first step that
fails; so their kinds are an initial part of load, resolve, invoke, and the external
routine is invoked at most once. -/
theorem c6_trace_of_run (env : Env) (argv : List String) :
    ((main env argv).2.trace = expectedTrace env argv ∧
      (main env argv).2.trace.map Action.kind <+:
        [ActionKind.load, ActionKind.resolve, ActionKind.invoke] ∧
      ((main env argv).2.trace.map Action.kind).count ActionKind.invoke ≤ 1) ∧
    ((Options.Options argv).hasError = true → (main env argv).2.trace = []) ∧
    ((Options.Options argv).hasError = false →
      env.dlopen (libraryArg (Options.Options argv)) = none →
      (main env argv).2.trace.map Action.kind <+: [ActionKind.load]) ∧
    (∀ handle, (Options.Options argv).hasError = false →
      env.dlopen (libraryArg (Options.Options argv)) = some handle →
      env.dlsym handle extractSymbol = none →
      (main env argv).2.trace.map Action.kind <+: [ActionKind.load, ActionKind.resolve]) := by
  have key : (main env argv).2.trace = expectedTrace env argv ∧
      (main env argv).2.trace.map Action.kind <+:
        [ActionKind.load, ActionKind.resolve, ActionKind.invoke] ∧
      ((main env argv).2.trace.map Action.kind).count ActionKind.invoke ≤ 1 :=
    trace_of_run env argv
  obtain ⟨e1, e2, e3, e4, _⟩ := expectedTrace_cases env argv
  refine ⟨key, ?_, ?_, ?_⟩
  · intro h; rw [key.1, e1 h]
  · intro h hl
    rw [key.1]
    cases hd : expectedDest env (Options.Options argv) with
    | none => rw [e2 h hd]; simp
    | some dest => rw [e3 dest h hd hl]; simp [Action.kind]
  · intro handle h hl hs
    rw [key.1]
    cases hd : expectedDest env (Options.Options argv) with
    | none => rw [e2 h hd]; simp
    | some dest => rw [e4 dest handle h hd hl hs]; simp [Action.kind]

/-- Claim C7: for a vector that parses (program name, input path, items) and a world
where load and resolve succeed, the external routine is invoked with the input path and,
as destination, the value of the last `-d` item when there is one, whatever the working
directory, and else the string the working-directory query returns. -/
theorem c7_invocation_arguments (env : Env) (prog input : String) (items : List Item)
    (handle : Nat) (f : ExtractFunc)
    (hl : env.dlopen (libraryArg (Options.Options (prog :: input :: itemTokens items))) =
      some handle)
    (hs : env.dlsym handle extractSymbol = some f) :
    (Options.Options (prog :: input :: itemTokens items)).hasError = false ∧
    (∀ v, refDest items = some v →
      (main env (prog :: input :: itemTokens items)).2.trace =
        [Action.load (libraryArg (Options.Options (prog :: input :: itemTokens items))),
          Action.resolve extractSymbol, Action.invoke input v]) ∧
    (∀ cwd, refDest items = none → env.getcwd = some cwd →
      (main env (prog :: input :: itemTokens items)).2.trace =
        [Action.load (libraryArg (Options.Options (prog :: input :: itemTokens items))),
          Action.resolve extractSymbol, Action.invoke input cwd]) := by
  obtain ⟨h, hin, _, hhd, hdp, _, _⟩ := Options_fields_of_items prog input items
  obtain ⟨_, _, _, _, e5⟩ := expectedTrace_cases env (prog :: input :: itemTokens items)
  have key := (trace_of_run env (prog :: input :: itemTokens items)).1
  refine ⟨h, ?_, ?_⟩
  · intro v hv
    have hd : expectedDest env (Options.Options (prog :: input :: itemTokens items)) =
        some v := by
      simp [expectedDest, hhd, hdp, hv]
    rw [key, e5 v handle f h hd hl hs, hin]
  · intro cwd hv hc
    have hd : expectedDest env (Options.Options (prog :: input :: itemTokens items)) =
        some cwd := by
      simp [expectedDest, hhd, hv, hc]
    rw [key, e5 cwd handle f h hd hl hs, hin]

theorem c7_invocation_arguments_witness :
    (main envOk ("prog" :: "cache.bin" :: itemTokens [])).2.trace =
        [Action.load
            (libraryArg (Options.Options ("prog" :: "cache.bin" :: itemTokens []))),
          Action.resolve extractSymbol, Action.invoke "cache.bin" "/tmp/work"] ∧
    ∀ cwd : Option String,
      (main { envOk with getcwd := cwd }
          ("prog" :: "cache.bin" :: itemTokens [Item.d "/out"])).2.trace =
        [Action.load
            (libraryArg (Options.Options ("prog" :: "cache.bin" :: itemTokens [Item.d "/out"]))),
          Action.resolve extractSymbol, Action.invoke "cache.bin" "/out"] :=
  ⟨(c7_invocation_arguments envOk "prog" "cache.bin" [] 7 (fun _ _ => ([(1, 2), (2, 2)], 0))
      rfl rfl).2.2 "/tmp/work" rfl rfl,
    fun cwd =>
      (c7_invocation_arguments { envOk with getcwd := cwd } "prog" "cache.bin" [Item.d "/out"] 7
        (fun _ _ => ([(1, 2), (2, 2)], 0)) rfl rfl).2.1 "/out" rfl⟩

theorem errorClass_cases (env : Env) (argv : List String) :
    ((Options.Options argv).hasError = true →
      errorClass env argv = some ErrorClass.argument) ∧
    ((Options.Options argv).hasError = false →
      expectedDest env (Options.Options argv) = none → errorClass env argv = none) ∧
    (∀ dest, (Options.Options argv).hasError = false →
      expectedDest env (Options.Options argv) = some dest →
      env.dlopen (libraryArg (Options.Options argv)) = none →
      errorClass env argv = some ErrorClass.load) ∧
    (∀ dest handle, (Options.Options argv).hasError = false →
      expectedDest env (Options.Options argv) = some dest →
      env.dlopen (libraryArg (Options.Options argv)) = some handle →
      env.dlsym handle extractSymbol = none →
      errorClass env argv = some ErrorClass.resolve) ∧
    (∀ dest handle f, (Options.Options argv).hasError = false →
      expectedDest env (Options.Options argv) = some dest →
      env.dlopen (libraryArg (Options.Options argv)) = some handle →
      env.dlsym handle extractSymbol = some f →
      errorClass env argv =
        if (f (Options.Options argv).inputPath dest).2 = 0 then none
        else some ErrorClass.extraction) := by
  refine ⟨?_, ?_, ?_, ?_, ?_⟩
  · intro h; simp [errorClass, h]
  · intro h hd; simp [errorClass, h, hd]
  · intro dest h hd hl; simp [errorClass, h, hd, hl]
  · intro dest handle h hd hl hs; simp [errorClass, h, hd, hl, hs]
  · intro dest handle f h hd hl hs; simp [errorClass, h, hd, hl, hs]

/-- The output entries of a run that begin with `error: `, class by class. -/
theorem error_entries_of_run (env : Env) (prog : String) (args : List String) (cls : ErrorClass)
    (h : errorClass env (prog :: args) = some cls) :
    (main env (prog :: args)).1 = Exit.returned 1 ∧
    (main env (prog :: args)).2.out.filter startsWithError =
      expectedErrorLines prog (Options.Options (prog :: args)) cls ∧
    (cls = ErrorClass.extraction →
      (main env (prog :: args)).2.out.getLast? = some "extract failed!\n") := by
  obtain ⟨e1, e2, e3, e4, e5⟩ := errorClass_cases env (prog :: args)
  cases ho : (Options.Options (prog :: args)).hasError with
  | true =>
    rw [e1 ho] at h
    cases h
    rw [main_parse_error env _ ho]
    simp [filter_printUsage, expectedErrorLines, List.filter_append, List.filter_cons]
  | false =>
    cases hd : expectedDest env (Options.Options (prog :: args)) with
    | none => rw [e2 ho hd] at h; cases h
    | some dest =>
      cases hl : env.dlopen (libraryArg (Options.Options (prog :: args))) with
      | none =>
        rw [e3 dest ho hd hl] at h
        cases h
        rw [main_load_fail env _ dest ho hd hl]
        simp [filter_printVerbose, expectedErrorLines, List.filter_append, List.filter_cons]
      | some handle =>
        cases hs : env.dlsym handle extractSymbol with
        | none =>
          rw [e4 dest handle ho hd hl hs] at h
          cases h
          rw [main_resolve_fail env _ dest handle ho hd hl hs]
          simp [filter_printVerbose, expectedErrorLines, List.filter_append, List.filter_cons]
        | some f =>
          rw [e5 dest handle f ho hd hl hs] at h
          by_cases hz : (f (Options.Options (prog :: args)).inputPath dest).2 = 0
          · rw [if_pos hz] at h; cases h
          · rw [if_neg hz] at h
            cases h
            rw [main_extract env _ dest handle f ho hd hl hs]
            simp [hz, filter_runProgress, stateAtInvoke_filter, expectedErrorLines,
              List.filter_append, List.filter_cons, startsWithError, List.isPrefixOf]

/-! ## The progress block -/

theorem count_progressLines (calls : List (Nat × Nat)) (str : String) :
    (calls.map progressLine).count (verboseLine str) = 0 := by
  rw [List.count_eq_zero]
  intro hmem
  obtain ⟨ct, _, hct⟩ := List.mem_map.mp hmem
  exact progressLine_ne_verboseLine ct str hct

/-- Claim C9, as the code has it: the first callback of an `extract()` call clears the flag
and writes the message "the cache file seems to be good!" in front of its progress line
when verbose is on, and nothing but its progress line when verbose is off; every later
callback writes only its progress line. Over a non-empty sequence of callbacks the message
is thus written exactly once with verbose on and never with verbose off. -/
theorem c9_progress_reports (s : State) (ct : Nat × Nat) (rest : List (Nat × Nat)) :
    Extractor.progressBlock ct.1 ct.2 (true, s) =
      (false,
        { s with out := s.out ++
            ((if s.g_verbose then [verboseLine "the cache file seems to be good!"] else []) ++
              [progressLine ct]) }) ∧
    (∀ ct2 : Nat × Nat,
      Extractor.progressBlock ct2.1 ct2.2 (false, s) =
        (false, { s with out := s.out ++ [progressLine ct2] })) ∧
    Extractor.runProgress (ct :: rest) (true, s) =
      (false,
        { s with out := s.out ++
            ((if s.g_verbose then [verboseLine "the cache file seems to be good!"] else []) ++
              (ct :: rest).map progressLine) }) ∧
    (Extractor.runProgress (ct :: rest) (true, s)).2.out.count
        (verboseLine "the cache file seems to be good!") =
      s.out.count (verboseLine "the cache file seems to be good!") +
        (if s.g_verbose then 1 else 0) := by
  have hrun : Extractor.runProgress (ct :: rest) (true, s) =
      (false,
        { s with out := s.out ++
            ((if s.g_verbose then [verboseLine "the cache file seems to be good!"] else []) ++
              (ct :: rest).map progressLine) }) := by
    rw [runProgress_eq]
    simp
  refine ⟨?_, ?_, hrun, ?_⟩
  · rw [progressBlock_eq]
    simp
  · intro ct2
    rw [progressBlock_eq]
    simp
  · rw [hrun]
    simp only [List.count_append, count_progressLines, Nat.add_zero]
    cases s.g_verbose <;> simp

/-- With verbose off the callbacks of a run write their progress lines and nothing else:
the message "the cache file seems to be good!" is not written at all, neither by the
callbacks on their own nor anywhere on the console of a whole run without `-v`. -/
theorem c9_not_verbose_counterexample :
    (Extractor.runProgress [(1, 2), (2, 2)]
        (true, { g_cmdline := "prog", g_verbose := false })).2.out =
      ["extracting files... (1/2)\r", "extracting files... (2/2)\r"] ∧
    (Extractor.runProgress [(1, 2), (2, 2)]
        (true, { g_cmdline := "prog", g_verbose := false })).2.out.count
      (verboseLine "the cache file seems to be good!") = 0 ∧
    (main envOk ["prog", "cache.bin"]).2.out =
      ["extracting files... (1/2)\r", "extracting files... (2/2)\r", "\n",
        "done, have fun!\n"] ∧
    (main envOk ["prog", "cache.bin", "-v"]).2.out.count
      (verboseLine "the cache file seems to be good!") = 1 := by
  decide

/-! ## Lines of the console -/

theorem digitChar_ne_newline (n : Nat) : Nat.digitChar n ≠ '\n' := by
  by_cases h : n < 16
  · interval_cases n <;> decide
  · have hstar : Nat.digitChar n = '*' := by
      unfold Nat.digitChar
      iterate 16 rw [if_neg (by omega)]
    rw [hstar]
    decide

theorem toDigitsCore_no_newline (fuel : Nat) : ∀ (n : Nat) (ds : List Char),
    '\n' ∉ ds → '\n' ∉ Nat.toDigitsCore 10 fuel n ds := by
  induction fuel with
  | zero => intro n ds h; simpa [Nat.toDigitsCore] using h
  | succ fuel ih =>
    intro n ds h
    have hd : '\n' ∉ Nat.digitChar (n % 10) :: ds := by
      intro hm
      rcases List.mem_cons.mp hm with h1 | h1
      · exact digitChar_ne_newline _ h1.symm
      · exact h h1
    unfold Nat.toDigitsCore
    simp only []
    split
    · exact hd
    · exact ih _ _ hd

theorem toString_no_newline (n : Nat) : '\n' ∉ (toString n).data := by
  have : (toString n).data = Nat.toDigitsCore 10 (n + 1) n [] := rfl
  rw [this]
  exact toDigitsCore_no_newline _ _ _ (by simp)

theorem linesOf_line (a : List Char) (U : List Char) (h : '\n' ∉ a) :
    linesOf (a ++ '\n' :: U) = a :: linesOf U := by
  induction a with
  | nil => simp [linesOf]
  | cons c a ih =>
    have hc : c ≠ '\n' := fun e => h (by simp [e])
    have ha : '\n' ∉ a := fun e => h (by simp [e])
    simp [linesOf, hc, ih ha]

theorem mem_tail_linesOf (a : List Char) (U : List Char) (h : '\n' ∉ a) :
    ∀ T : List Char, a ∈ (linesOf (T ++ '\n' :: (a ++ '\n' :: U))).tail := by
  intro T
  induction T with
  | nil => simp [linesOf, linesOf_line a U h]
  | cons c T ih =>
    by_cases hc : c = '\n'
    · simp only [List.cons_append, linesOf, hc, if_true, List.tail_cons]
      exact List.mem_of_mem_tail ih
    · simp only [List.cons_append, linesOf, hc, if_false]
      cases hl : linesOf (T ++ '\n' :: (a ++ '\n' :: U)) with
      | nil => rw [hl] at ih; simp at ih
      | cons l ls => rw [hl] at ih; simpa using ih

theorem consoleChars_append (xs ys : List String) :
    consoleChars (xs ++ ys) = consoleChars xs ++ consoleChars ys := by
  induction xs with
  | nil => rfl
  | cons e xs ih => simp [consoleChars, ih]

theorem consoleLines_nil : consoleLines [] = [""] := rfl

/-- An entry that is one whole line. -/
theorem consoleLines_line (a : String) (es : List String) (h : '\n' ∉ a.data) :
    consoleLines ((a ++ "\n") :: es) = a :: consoleLines es := by
  have hc : consoleChars ((a ++ "\n") :: es) = a.data ++ '\n' :: consoleChars es := by
    simp [consoleChars, String.data_append]
  simp only [consoleLines, hc, linesOf_line _ _ h, List.map_cons]

/-- An entry that is one whole line followed by an empty line. -/
theorem consoleLines_line2 (a : String) (es : List String) (h : '\n' ∉ a.data) :
    consoleLines ((a ++ "\n\n") :: es) = a :: "" :: consoleLines es := by
  have hc : consoleChars ((a ++ "\n\n") :: es) =
      a.data ++ '\n' :: ([] ++ '\n' :: consoleChars es) := by
    simp [consoleChars, String.data_append]
  simp only [consoleLines, hc, linesOf_line _ _ h, linesOf_line [] _ (by simp), List.map_cons]

/-- A block of progress entries, closed by the line break `extract()` writes after it. -/
theorem consoleLines_progress (calls : List (Nat × Nat)) (es : List String) :
    consoleLines (calls.map progressLine ++ "\n" :: es) =
      String.mk (consoleChars (calls.map progressLine)) :: consoleLines es := by
  have hn : '\n' ∉ consoleChars (calls.map progressLine) := by
    induction calls with
    | nil => simp [consoleChars]
    | cons ct calls ih =>
      simp [consoleChars, progressLine, String.data_append, toString_no_newline, ih]
  have hc : consoleChars (calls.map progressLine ++ "\n" :: es) =
      consoleChars (calls.map progressLine) ++ '\n' :: consoleChars es := by
    rw [consoleChars_append]
    simp [consoleChars]
  simp only [consoleLines, hc, linesOf_line _ _ hn, List.map_cons]

theorem startsWithError_progress (calls : List (Nat × Nat)) :
    startsWithError (String.mk (consoleChars (calls.map progressLine))) = false := by
  cases calls with
  | nil => simp [consoleChars, startsWithError, List.isPrefixOf]
  | cons ct calls =>
    simp [consoleChars, startsWithError, progressLine, String.data_append, List.isPrefixOf]

@[simp]
theorem startsWithError_errorText (prog msg : String) :
    startsWithError (errorText prog msg) = true := by
  simp [startsWithError, errorText, String.data_append, List.isPrefixOf]

theorem startsWithError_verboseText (str : String) :
    startsWithError ("[!] " ++ str) = false := by
  simp [startsWithError, String.data_append, List.isPrefixOf]

/-- The line `extract failed!` is on the console whenever the last two entries are the
line break after the progress block and that message. -/
theorem mem_consoleLines_extract_failed (pre : List String) :
    "extract failed!" ∈ consoleLines (pre ++ ["\n", "extract failed!\n"]) := by
  have hc : consoleChars (pre ++ ["\n", "extract failed!\n"]) =
      consoleChars pre ++ '\n' :: ("extract failed!".data ++ '\n' :: []) := by
    rw [consoleChars_append]
    simp [consoleChars]
  have hm := mem_tail_linesOf "extract failed!".data [] (by decide) (consoleChars pre)
  rw [← hc] at hm
  exact List.mem_map.mpr ⟨_, List.mem_of_mem_tail hm, rfl⟩

/-! ## No line break enters the exposed fields from line-break-free tokens -/

theorem scan_no_newline (n : Nat) : ∀ (toks : List String) (o : Options),
    toks.length ≤ n → (∀ t ∈ toks, '\n' ∉ t.data) →
    ('\n' ∉ o._error.data ∧ '\n' ∉ o._dest_path.data ∧ '\n' ∉ o._library_path.data) →
    ('\n' ∉ (scan toks o)._error.data ∧ '\n' ∉ (scan toks o)._dest_path.data ∧
      '\n' ∉ (scan toks o)._library_path.data) := by
  induction n with
  | zero =>
    intro toks o hn _ ho
    cases toks with
    | nil => rw [scan_nil]; exact ho
    | cons a l => simp at hn
  | succ n ih =>
    intro toks o hn ht ho
    cases toks with
    | nil => rw [scan_nil]; exact ho
    | cons opt rest =>
      have hopt : '\n' ∉ opt.data := ht opt (by simp)
      have hrest : ∀ t ∈ rest, '\n' ∉ t.data := fun t hm => ht t (by simp [hm])
      have hr : rest.length ≤ n := by simpa using hn
      rw [scan_cons]
      by_cases hv : opt = "-v"
      · rw [if_pos hv]
        exact ih rest { o with _verbose := true } hr hrest ho
      · rw [if_neg hv]
        by_cases hd : opt = "-d"
        · rw [if_pos hd]
          cases rest with
          | nil =>
            refine ⟨?_, ho.2.1, ho.2.2⟩
            show '\n' ∉ ("value must be specified for option: " ++ opt).data
            simp [String.data_append, hopt]
          | cons value rest =>
            have hval : '\n' ∉ value.data := hrest value (by simp)
            exact ih rest { o with _dest_path := value, _has_dest_path := true }
              (by simp at hr; omega) (fun t hm => hrest t (by simp [hm]))
              ⟨ho.1, hval, ho.2.2⟩
        · rw [if_neg hd]
          by_cases hl : opt = "-l"
          · rw [if_pos hl]
            cases rest with
            | nil =>
              refine ⟨?_, ho.2.1, ho.2.2⟩
              show '\n' ∉ ("value must be specified for option: " ++ opt).data
              simp [String.data_append, hopt]
            | cons value rest =>
              have hval : '\n' ∉ value.data := hrest value (by simp)
              exact ih rest { o with _library_path := value, _has_library_path := true }
                (by simp at hr; omega) (fun t hm => hrest t (by simp [hm]))
                ⟨ho.1, ho.2.1, hval⟩
          · rw [if_neg hl]
            refine ⟨?_, ho.2.1, ho.2.2⟩
            show '\n' ∉ ("unknown option: " ++ opt).data
            simp [String.data_append, hopt]

theorem Options_no_newline (argv : List String) (h : ∀ t ∈ argv, '\n' ∉ t.data) :
    '\n' ∉ (Options.Options argv).error.data ∧
    '\n' ∉ (Options.Options argv).destPath.data ∧
    '\n' ∉ (Options.Options argv).libraryPath.data := by
  cases argv with
  | nil => simp [Options.Options, Options.error, Options.destPath, Options.libraryPath]
  | cons prog l =>
    cases l with
    | nil => simp [Options.Options, Options.error, Options.destPath, Options.libraryPath]
    | cons input rest =>
      rw [Options_eq_scan]
      exact scan_no_newline rest.length rest _ (Nat.le_refl _)
        (fun t hm => h t (by simp [hm])) (by simp)

theorem libraryArg_no_newline (argv : List String) (h : ∀ t ∈ argv, '\n' ∉ t.data) :
    '\n' ∉ (libraryArg (Options.Options argv)).data := by
  unfold libraryArg
  split
  · exact (Options_no_newline argv h).2.2
  · decide

theorem expectedDest_no_newline (env : Env) (argv : List String) (dest : String)
    (h : noLineBreaks env argv)
    (hd : expectedDest env (Options.Options argv) = some dest) : '\n' ∉ dest.data := by
  unfold expectedDest at hd
  split at hd
  · cases hd
    exact (Options_no_newline argv h.1).2.1
  · exact h.2 dest hd

/-! ## Blocks of entries without error lines -/

theorem quietBlock_nil : quietBlock [] := fun _ => rfl

theorem quietBlock_append (xs ys : List String) (hx : quietBlock xs) (hy : quietBlock ys) :
    quietBlock (xs ++ ys) := by
  intro es
  rw [List.append_assoc, hx, hy]

theorem quietBlock_line (a : String) (h : '\n' ∉ a.data) (hp : startsWithError a = false) :
    quietBlock [a ++ "\n"] := by
  intro es
  show (consoleLines ((a ++ "\n") :: es)).filter startsWithError = _
  rw [consoleLines_line a es h, List.filter_cons, hp]
  rfl

theorem quietBlock_line2 (a : String) (h : '\n' ∉ a.data) (hp : startsWithError a = false) :
    quietBlock [a ++ "\n\n"] := by
  intro es
  show (consoleLines ((a ++ "\n\n") :: es)).filter startsWithError = _
  rw [consoleLines_line2 a es h, List.filter_cons, hp]
  rfl

theorem quietBlock_verboseLine (str : String) (h : '\n' ∉ str.data) :
    quietBlock [verboseLine str] :=
  quietBlock_line ("[!] " ++ str) (by simp [String.data_append, h])
    (startsWithError_verboseText str)

theorem quietBlock_usage (g : String) (h : '\n' ∉ g.data) : quietBlock (usageEntries g) := by
  have e1 : "OVERVIEW: dyld shared cache extractor (" ++ prog_version ++ ")\n\n" =
      "OVERVIEW: dyld shared cache extractor (1.15.0)" ++ "\n\n" := by decide
  have e2 : "USAGE: " ++ g ++ " <cache file> [-v] [-d arg] [-l arg]\n\n" =
      ("USAGE: " ++ g ++ " <cache file> [-v] [-d arg] [-l arg]") ++ "\n\n" := by
    apply String.ext
    simp [String.data_append]
  have e3 : "OPTIONS:\n" = "OPTIONS:" ++ "\n" := by decide
  have e4 : "\t-v print verbose messages\n" = "\t-v print verbose messages" ++ "\n" := by
    decide
  have e5 : "\t-d set destination path for the extracted files\n" =
      "\t-d set destination path for the extracted files" ++ "\n" := by decide
  have e6 : "\t-l set path to dsc_extractor library\n" =
      "\t-l set path to dsc_extractor library" ++ "\n" := by decide
  have e7 : ("\n" : String) = "" ++ "\n" := by decide
  have q1 := quietBlock_line2 "OVERVIEW: dyld shared cache extractor (1.15.0)"
    (by decide) (by decide)
  have q2 := quietBlock_line2 ("USAGE: " ++ g ++ " <cache file> [-v] [-d arg] [-l arg]")
    (by simp [String.data_append, h])
    (by simp [startsWithError, String.data_append, List.isPrefixOf])
  have q3 := quietBlock_line "OPTIONS:" (by decide) (by decide)
  have q4 := quietBlock_line "\t-v print verbose messages" (by decide) (by decide)
  have q5 := quietBlock_line "\t-d set destination path for the extracted files"
    (by decide) (by decide)
  have q6 := quietBlock_line "\t-l set path to dsc_extractor library" (by decide) (by decide)
  have q7 := quietBlock_line "" (by decide) (by decide)
  rw [← e1] at q1
  rw [← e2] at q2
  rw [← e3] at q3
  rw [← e4] at q4
  rw [← e5] at q5
  rw [← e6] at q6
  rw [← e7] at q7
  exact quietBlock_append _ _ q1 (quietBlock_append _ _ q2 (quietBlock_append _ _ q3
    (quietBlock_append _ _ q4 (quietBlock_append _ _ q5 (quietBlock_append _ _ q6 q7)))))

theorem quietBlock_progress (calls : List (Nat × Nat)) :
    quietBlock (calls.map progressLine ++ ["\n"]) := by
  intro es
  rw [List.append_assoc]
  show (consoleLines (calls.map progressLine ++ "\n" :: es)).filter startsWithError = _
  rw [consoleLines_progress, List.filter_cons, startsWithError_progress]
  rfl

theorem printUsage_out (s : State) : (printUsage s).out = s.out ++ usageEntries s.g_cmdline := by
  simp [printUsage, usageEntries]

theorem quietBlock_printVerbose (str : String) (s : State) (hs : quietBlock s.out)
    (h : '\n' ∉ str.data) : quietBlock (printVerbose str s).out := by
  rw [printVerbose_out]
  split
  · exact quietBlock_append _ _ hs (quietBlock_verboseLine str h)
  · simpa using hs

theorem quietBlock_extract (calls : List (Nat × Nat)) (s : State) (hs : quietBlock s.out) :
    quietBlock ((Extractor.runProgress calls (true, s)).2.cout "\n").out := by
  rw [cout_out, runProgress_eq]
  simp only [List.append_assoc]
  refine quietBlock_append _ _ hs ?_
  split
  · exact quietBlock_append _ _ (quietBlock_verboseLine _ (by decide))
      (quietBlock_progress calls)
  · exact quietBlock_progress calls

theorem errorLines_after_quiet (xs : List String) (prog msg : String) (hx : quietBlock xs)
    (hp : '\n' ∉ prog.data) (hm : '\n' ∉ msg.data) :
    (consoleLines (xs ++ [errorLine prog msg])).filter startsWithError =
      [errorText prog msg] := by
  rw [hx]
  show (consoleLines ((errorText prog msg ++ "\n") :: [])).filter startsWithError = _
  rw [consoleLines_line _ _ (by simp [errorText, String.data_append, hp, hm])]
  simp [consoleLines_nil, List.filter_cons, startsWithError, List.isPrefixOf]

theorem errorLines_extract_failed (xs : List String) (hx : quietBlock xs) :
    (consoleLines (xs ++ ["extract failed!\n"])).filter startsWithError = [] := by
  rw [hx]
  decide

theorem stateAtInvoke_quiet (argv : List String) (dest : String) (h : '\n' ∉ dest.data) :
    quietBlock (stateAtInvoke argv dest).out := by
  unfold stateAtInvoke
  rw [call_out]
  refine quietBlock_printVerbose _ _ ?_ (by decide)
  refine quietBlock_printVerbose _ _ ?_ (by decide)
  rw [call_out, call_out]
  refine quietBlock_printVerbose _ _ ?_ (by decide)
  refine quietBlock_printVerbose _ _ quietBlock_nil ?_
  simp [String.data_append, h]

/-! ## Error lines on the console -/

/-- Claim C8, as the code has it: when no token of the argument vector and no result of
the working-directory query contains a line break, an argument error, a load error and a
resolve error each leave exactly one console line that begins with `error: `, namely
`error: <program>: <message>` with the message of that error, and `main` returns 1; a
non-zero status of the external routine leaves no such line: the console has the line
`extract failed!`, and `main` returns 1. -/
theorem c8_error_lines (env : Env) (prog : String) (args : List String) (cls : ErrorClass)
    (h : errorClass env (prog :: args) = some cls)
    (hnl : noLineBreaks env (prog :: args)) :
    (main env (prog :: args)).1 = Exit.returned 1 ∧
    (consoleLines (main env (prog :: args)).2.out).filter startsWithError =
      expectedErrorTexts prog (Options.Options (prog :: args)) cls ∧
    (cls = ErrorClass.extraction →
      "extract failed!" ∈ consoleLines (main env (prog :: args)).2.out) := by
  obtain ⟨e1, e2, e3, e4, e5⟩ := errorClass_cases env (prog :: args)
  have hprog : '\n' ∉ prog.data := hnl.1 prog (by simp)
  have hopts := Options_no_newline (prog :: args) hnl.1
  have hlib := libraryArg_no_newline (prog :: args) hnl.1
  cases ho : (Options.Options (prog :: args)).hasError with
  | true =>
    rw [e1 ho] at h
    cases h
    rw [main_parse_error env _ ho]
    refine ⟨rfl, ?_, fun hc => by cases hc⟩
    rw [printError_out, printUsage_out]
    simp only [printUsage_cmdline, expectedErrorTexts, List.headD_cons]
    exact errorLines_after_quiet _ _ _
      (quietBlock_append _ _ quietBlock_nil (quietBlock_usage prog hprog)) hprog hopts.1
  | false =>
    cases hd : expectedDest env (Options.Options (prog :: args)) with
    | none => rw [e2 ho hd] at h; cases h
    | some dest =>
      have hdest := expectedDest_no_newline env (prog :: args) dest hnl hd
      have hq1 : quietBlock
          (printVerbose "loading the extractor library..."
            (printVerbose ("extracted files will be in " ++ dest)
              { g_cmdline := prog,
                g_verbose := (Options.Options (prog :: args)).verbose })).out :=
        quietBlock_printVerbose _ _
          (quietBlock_printVerbose _ _ quietBlock_nil (by simp [String.data_append, hdest]))
          (by decide)
      cases hl : env.dlopen (libraryArg (Options.Options (prog :: args))) with
      | none =>
        rw [e3 dest ho hd hl] at h
        cases h
        rw [main_load_fail env _ dest ho hd hl]
        refine ⟨rfl, ?_, fun hc => by cases hc⟩
        rw [printError_out, call_out]
        simp only [call_cmdline, printVerbose_cmdline, expectedErrorTexts, List.headD_cons]
        exact errorLines_after_quiet _ _ _ hq1 hprog (by simp [String.data_append, hlib])
      | some handle =>
        cases hs : env.dlsym handle extractSymbol with
        | none =>
          rw [e4 dest handle ho hd hl hs] at h
          cases h
          rw [main_resolve_fail env _ dest handle ho hd hl hs]
          refine ⟨rfl, ?_, fun hc => by cases hc⟩
          rw [printError_out, call_out, call_out]
          simp only [call_cmdline, printVerbose_cmdline, expectedErrorTexts, List.headD_cons]
          exact errorLines_after_quiet _ _ _ hq1 hprog (by decide)
        | some f =>
          rw [e5 dest handle f ho hd hl hs] at h
          by_cases hz : (f (Options.Options (prog :: args)).inputPath dest).2 = 0
          · rw [if_pos hz] at h; cases h
          · rw [if_neg hz] at h
            cases h
            rw [main_extract env _ dest handle f ho hd hl hs]
            simp only [hz, if_false]
            refine ⟨trivial, ?_, fun _ => ?_⟩
            · rw [cout_out]
              simp only [expectedErrorTexts]
              exact errorLines_extract_failed _
                (quietBlock_extract _ _ (stateAtInvoke_quiet _ dest hdest))
            · rw [cout_out, cout_out, List.append_assoc]
              exact mem_consoleLines_extract_failed _

theorem c8_error_lines_witness :
    (main envNoLib ("prog" :: ["cache.bin", "-v", "-l", "/nowhere"])).1 = Exit.returned 1 ∧
    (consoleLines
        (main envNoLib ("prog" :: ["cache.bin", "-v", "-l", "/nowhere"])).2.out).filter
        startsWithError =
      expectedErrorTexts "prog"
        (Options.Options ("prog" :: ["cache.bin", "-v", "-l", "/nowhere"])) ErrorClass.load ∧
    (ErrorClass.load = ErrorClass.extraction →
      "extract failed!" ∈
        consoleLines (main envNoLib ("prog" :: ["cache.bin", "-v", "-l", "/nowhere"])).2.out) :=
  c8_error_lines envNoLib "prog" ["cache.bin", "-v", "-l", "/nowhere"] ErrorClass.load
    (by decide) (by decide)

/-- Two runs against the claim as first written. In the first the external routine returns
status 1: `main` returns 1 and the console lines are the progress line and
`extract failed!`, none of the form `error: <program>: <message>`. In the second the
library cannot be loaded and the `-d` value, echoed in verbose mode, holds a line break:
two console lines have that form. -/
theorem c8_error_lines_counterexample :
    (errorClass envFail ["prog", "cache.bin"] = some ErrorClass.extraction ∧
      (main envFail ["prog", "cache.bin"]).1 = Exit.returned 1 ∧
      consoleLines (main envFail ["prog", "cache.bin"]).2.out =
        ["extracting files... (1/2)\r", "extract failed!", ""] ∧
      (consoleLines (main envFail ["prog", "cache.bin"]).2.out).filter startsWithError = []) ∧
    (errorClass envNoLib
        ["prog", "c", "-v", "-d", "out\nerror: prog: disk full", "-l", "/nowhere"] =
        some ErrorClass.load ∧
      (consoleLines
          (main envNoLib
            ["prog", "c", "-v", "-d", "out\nerror: prog: disk full", "-l",
              "/nowhere"]).2.out).filter startsWithError =
        ["error: prog: disk full",
          "error: prog: failed to load the extractor library: /nowhere"]) := by
  decide

end DyldExtractor
